import Mathlib

/-!
Verification of the excel-deduplicator repository (src/main.py, src/utils/logger.py).

The development shallowly embeds the parts of the program that the checked
properties talk about:

* cell values of a spreadsheet table (`Cell`), with numeric cells carried as
  exact decimal values (`Dec`, value num / 10 ^ exp); the program manipulates
  Python floats, which for the decimal literals appearing in prices coincide
  with this decimal semantics,
* raw tables as read from disk (`RawTable`: header list plus rows of
  header-labelled cells) and canonical four-column rows (`Row`),
* the regular expressions of main.py, modelled as executable character-list
  matchers that follow leftmost / greedy backtracking semantics of re.search,
* the per-file pipeline of Deduplicator.run, with Python exceptions made
  explicit in an Except monad (`PyExc`): an error value aborts the whole run,
  exactly like an uncaught exception.

String values are ASCII in all concrete inputs; case folding uses
Char.toLower, matching re.IGNORECASE on such data.
-/

/-! ### Character and string helpers -/

/-- All-digit run value, most significant first (helper for number parsing). -/
def digitsNat (cs : List Char) : Nat :=
  cs.foldl (fun a c => 10 * a + (c.toNat - 48)) 0

/-- Drop characters satisfying p from both ends of a character list
(Python str.strip with a character class). -/
def stripEnds (p : Char → Bool) (cs : List Char) : List Char :=
  ((cs.dropWhile p).reverse.dropWhile p).reverse

/-- Case-sensitive list-of-chars begins-with test. -/
def startsWithList : List Char → List Char → Bool
  | [], _ => true
  | _ :: _, [] => false
  | n :: ns, h :: hs => (n = h) && startsWithList ns hs

/-- Case-insensitive begins-with test. -/
def startsWithCI : List Char → List Char → Bool
  | [], _ => true
  | _ :: _, [] => false
  | n :: ns, h :: hs => (n.toLower = h.toLower) && startsWithCI ns hs

/-- Case-insensitive literal substring search: re.search of a pattern with no
metacharacters under re.IGNORECASE, as used for the column keywords. -/
def containsCIAux (needle : List Char) : List Char → Bool
  | [] => startsWithCI needle []
  | c :: cs => startsWithCI needle (c :: cs) || containsCIAux needle cs

/-- Case-insensitive literal substring containment on strings. -/
def containsCI (needle hay : String) : Bool :=
  containsCIAux needle.data hay.data

/-- Whether a string contains the given character. -/
def containsChar (c : Char) (s : String) : Bool :=
  s.data.contains c

/-- Python str.replace for a non-empty needle, on fuel: replace every
non-overlapping occurrence, scanning left to right.  Every step consumes at
least one input character, so fuel bounded below by the input length makes
the fuel case unreachable; fuel only serves to keep the recursion
structural. -/
def replaceFuel (pat rep : List Char) : Nat → List Char → List Char
  | 0, cs => cs
  | _ + 1, [] => []
  | fuel + 1, c :: cs =>
    if !pat.isEmpty && startsWithList pat (c :: cs) then
      rep ++ replaceFuel pat rep fuel ((c :: cs).drop pat.length)
    else
      c :: replaceFuel pat rep fuel cs

/-- Python str.replace for a non-empty needle. -/
def replaceList (pat rep : List Char) (cs : List Char) : List Char :=
  replaceFuel pat rep (cs.length + 1) cs

/-- Python str.replace on strings. -/
def strReplace (s pat rep : String) : String :=
  String.mk (replaceList pat.data rep.data s.data)

/-- Remainder of the list after the first occurrence of the separator, if any
(helper for Python str.split). -/
def afterFirst (sep : List Char) : List Char → Option (List Char)
  | [] => if sep.isEmpty then some [] else none
  | c :: cs =>
    if startsWithList sep (c :: cs) then some ((c :: cs).drop sep.length)
    else afterFirst sep cs

theorem afterFirst_length_lt (sep : List Char) (hsep : sep ≠ []) :
    ∀ cs r, afterFirst sep cs = some r → r.length < cs.length := by
  intro cs
  induction cs with
  | nil =>
    intro r h
    simp [afterFirst, List.isEmpty_iff, hsep] at h
  | cons c cs ih =>
    intro r h
    simp only [afterFirst] at h
    split at h
    · have h1 : 1 ≤ sep.length := by
        cases sep with
        | nil => exact absurd rfl hsep
        | cons a l => simp
      cases h
      simp only [List.length_drop, List.length_cons]
      omega
    · have := ih r h
      simp only [List.length_cons]
      omega

/-- Iterate afterFirst on fuel: the text after the last (leftmost
non-overlapping) occurrence of the separator.  Each successful afterFirst
strictly shortens the list (the separator is non-empty at every call site
reaching it), so fuel bounded below by the input length makes the fuel case
unreachable; fuel only keeps the recursion structural. -/
def splitTailFuel (sep : List Char) : Nat → List Char → List Char
  | 0, cs => cs
  | fuel + 1, cs =>
    match afterFirst sep cs with
    | none => cs
    | some r => splitTailFuel sep fuel r

/-- Python file.split(sep)[-1] on character lists. -/
def splitTailList (sep : List Char) (cs : List Char) : List Char :=
  if sep = [] then cs else splitTailFuel sep (cs.length + 1) cs

/-- Python file.split(sep)[-1] on strings. -/
def splitTail (sep s : String) : String :=
  String.mk (splitTailList sep.data s.data)

/-! ### Exact decimal numbers standing for the Python floats of the program -/

/-- A decimal number num / 10 ^ exp.  The price strings handled by the
program denote such numbers exactly; Python float arithmetic on them is
modelled by exact decimal arithmetic. -/
structure Dec where
  num : Int
  exp : Nat
deriving DecidableEq, Repr

/-- Numeric strict order on decimals (cross multiplication). -/
def decLt (a b : Dec) : Bool :=
  a.num * (10 : Int) ^ b.exp < b.num * (10 : Int) ^ a.exp

/-- Whether a decimal is numerically zero (Python falsiness of a float). -/
def decIsZero (d : Dec) : Bool :=
  d.num = 0

/-- Strip trailing decimal zeros: returns the pair (num, exp) with the same
value and minimal exponent (recursion on the exponent). -/
def decNorm : Int → Nat → Int × Nat
  | n, 0 => (n, 0)
  | n, e + 1 => if n % 10 = 0 then decNorm (n / 10) e else (n, e + 1)

/-- Left-pad a digit string with zeros to the given width. -/
def padZeros (w : Nat) (s : String) : String :=
  String.mk (List.replicate (w - s.length) '0') ++ s

/-- Python repr/str of a non-negative float holding a decimal value: digits
with a decimal point, trailing zeros dropped, integers rendered with ".0"
(shortest round-trip representation of such values). -/
def floatRepr (d : Dec) : String :=
  let (n, e) := decNorm d.num d.exp
  if e = 0 then toString n ++ ".0"
  else
    let p : Int := (10 : Int) ^ e
    toString (n / p) ++ "." ++ padZeros e (toString (n % p))

/-! ### Cells, raw tables, canonical rows -/

/-- One spreadsheet cell as produced by the tabular reader: missing (NaN),
numeric, or text. -/
inductive Cell where
  | na : Cell
  | num : Dec → Cell
  | str : String → Cell
deriving DecidableEq, Repr

/-- Python str(value) for a cell: NaN prints as nan, floats print with a
decimal point, strings are themselves. -/
def pyStrCell : Cell → String
  | Cell.na => "nan"
  | Cell.num d => floatRepr d
  | Cell.str s => s

/-- Whether the cell is missing (pandas NaN, detected by dropna). -/
def cellIsNa : Cell → Bool
  | Cell.na => true
  | _ => false

/-- A raw table as read from disk: the header names, and one list of
(header, cell) entries per row, in header order. -/
structure RawTable where
  headers : List String
  rows : List (List (String × Cell))
deriving DecidableEq, Repr

/-- A canonical product row after column renaming, carrying the four
canonical fields (extra columns of the real frame never influence the
checked properties and are not carried). -/
structure Row where
  title : Cell
  url : Cell
  image : Cell
  price : Cell
deriving DecidableEq, Repr

/-- Whether the row has been normalized: title and price are text cells, as
the whitespace-trimming step guarantees. -/
def normRow (r : Row) : Bool :=
  (match r.title with | Cell.str _ => true | _ => false) &&
  (match r.price with | Cell.str _ => true | _ => false)

/-! ### Except-monad list combinators (Python loops that may raise) -/

/-- An uncaught Python exception of the program; any such value aborts the
whole run, as there is no try/except around the processing loops. -/
inductive PyExc where
  /-- UnboundLocalError: a local name referenced before assignment. -/
  | nameError : PyExc
  /-- AttributeError: a method called on None (a failed re.search). -/
  | attributeError : PyExc
  /-- ValueError: float() applied to a non-numeric string. -/
  | valueError : PyExc
deriving DecidableEq, Repr

/-- Effectful map over a list, stopping at the first raised exception. -/
def mapME (f : α → Except PyExc β) : List α → Except PyExc (List β)
  | [] => .ok []
  | x :: xs =>
    match f x with
    | .error e => .error e
    | .ok y =>
      match mapME f xs with
      | .error e => .error e
      | .ok ys => .ok (y :: ys)

/-- Effectful left fold over a list, stopping at the first raised exception. -/
def foldlME (f : σ → α → Except PyExc σ) : σ → List α → Except PyExc σ
  | s, [] => .ok s
  | s, x :: xs =>
    match f s x with
    | .error e => .error e
    | .ok s₂ => foldlME f s₂ xs

/-! ### The regular expressions of main.py -/

/-- re.search of the step-4 filter pattern of Deduplicator.__format_price,
\$*\d+\.*\d*(?![\-]) : a match exists at some position iff the string has a
digit whose following character is absent or not a dash.  (At a digit, the
minimal match is that digit alone and the lookahead inspects the next
character; neither the dollar, dot nor digit loops can consume a dash, so no
longer backtracking alternative survives when the next character is a dash,
and dollar-prefixed starting points are subsumed by starting at the digit.) -/
def priceDigitSearch : List Char → Bool
  | [] => false
  | [c] => c.isDigit
  | c :: d :: rest => (c.isDigit && d ≠ '-') || priceDigitSearch (d :: rest)

/-- re.search(r"\d+.?\d*", s) of step 6 of Deduplicator.__format_price,
returning the matched text: leftmost match starts at the first digit; the
greedy \d+ takes the digit run, the unescaped . takes one further character
of any kind except a newline if one exists, and \d* takes the digit run
after it. -/
def extractToken : List Char → Option (List Char)
  | [] => none
  | c :: cs =>
    if c.isDigit then
      let run1 := (c :: cs).takeWhile Char.isDigit
      let rest := (c :: cs).dropWhile Char.isDigit
      some (match rest with
            | [] => run1
            | d :: rest2 =>
              if d = '\n' then run1 else run1 ++ d :: rest2.takeWhile Char.isDigit)
    else extractToken cs

/-- Character class [a-zA-Z0-9.\-] of group 1 of DOMAIN_RE. -/
def isClass1 (c : Char) : Bool :=
  c.isAlphanum || c = '.' || c = '-'

/-- Character class [\w.\-] of the tail of DOMAIN_RE (ASCII word characters;
the concrete paths of this development are ASCII). -/
def isClass2 (c : Char) : Bool :=
  c.isAlphanum || c = '_' || c = '.' || c = '-'

/-- Case-insensitive extension tail of DOMAIN_RE: class2* \. (csv|xlsx) $ . -/
def tailMatches (rest : List Char) : Bool :=
  let low := rest.map Char.toLower
  (low.length ≥ 4 && low.drop (low.length - 4) = ['.', 'c', 's', 'v']
    && (low.take (low.length - 4)).all isClass2) ||
  (low.length ≥ 5 && low.drop (low.length - 5) = ['.', 'x', 'l', 's', 'x']
    && (low.take (low.length - 5)).all isClass2)

/-- Greedy group-1 choice of DOMAIN_RE at a fixed starting position: try the
longest class1 run first and backtrack, requiring the (?![\/]) lookahead and
the extension tail after it. -/
def tryG1 (cs : List Char) : Nat → Option (List Char)
  | 0 => none
  | k + 1 =>
    let g := cs.take (k + 1)
    let rest := cs.drop (k + 1)
    let look : Bool := match rest with
                       | [] => true
                       | c :: _ => c ≠ '/'
    if look && tailMatches rest then some g else tryG1 cs k

/-- A DOMAIN_RE match attempt anchored at the current position. -/
def domainMatchAt (cs : List Char) : Option (List Char) :=
  tryG1 cs (cs.takeWhile isClass1).length

/-- re.search of DOMAIN_RE = ([a-zA-Z0-9.\-]+(?![\/]))[\w\-.]*\.(csv|xlsx)$
with re.IGNORECASE: leftmost starting position wins, and group 1 is greedy
at that position.  Returns group 1, or none when the search fails (in which
case the program calls .group(1) on None and raises AttributeError). -/
def domainSearch : List Char → Option (List Char)
  | [] => none
  | c :: rest =>
    match domainMatchAt (c :: rest) with
    | some g => some g
    | none => domainSearch rest

/-- Domain token extraction from a file path (DOMAIN_RE.search(path).group(1)). -/
def extractDomain (path : String) : Option String :=
  (domainSearch path.data).map String.mk

/-- One pattern character of an interpolated domain token against one text
character, under re.IGNORECASE: an unescaped dot matches any character but a
newline, every other token character (alphanumerics and dashes) matches
itself case-insensitively. -/
def charMatch (p c : Char) : Bool :=
  (p = '.' && c ≠ '\n') || p.toLower = c.toLower

/-- Whether the interpolated domain pattern matches at the start of the text. -/
def tokenMatchesAt : List Char → List Char → Bool
  | [], _ => true
  | _ :: _, [] => false
  | p :: ps, c :: cs => charMatch p c && tokenMatchesAt ps cs

/-- re.search(rf"{domain}", file, re.I) of Deduplicator.__get_matching_files:
the domain token is interpolated into the pattern unescaped, so its dots are
wildcards; search tries every starting position. -/
def tokenSearch (pat : List Char) : List Char → Bool
  | [] => tokenMatchesAt pat []
  | c :: cs => tokenMatchesAt pat (c :: cs) || tokenSearch pat cs

/-! ### Price text normalization (Deduplicator.__format_price helpers) -/

/-- Step 5 cleaning of a price string:
str(value).strip("$").strip().replace(",", "").replace(" ", "") . -/
def cleanPrice (s : String) : String :=
  String.mk
    (((stripEnds (fun c => c = '$') s.data).reverse.reverse
        |> stripEnds Char.isWhitespace)
      |>.filter (fun c => c ≠ ',' && c ≠ ' '))

/-- Python float() restricted to the token shapes produced by extractToken
(a digit run, optionally one separator character and a further digit run):
the separator must be a dot, an exponent letter with digits after it, or an
underscore between digits; anything else raises ValueError.  Exponent
overflow to inf is not modelled (never reached on the inputs considered). -/
def parseFloatToken (cs : List Char) : Option Dec :=
  let run1 := cs.takeWhile Char.isDigit
  let rest := cs.dropWhile Char.isDigit
  if run1.isEmpty then none
  else
    match rest with
    | [] => some ⟨(digitsNat run1 : Int), 0⟩
    | sep :: r2 =>
      if r2.all Char.isDigit then
        if sep = '.' then
          some ⟨(digitsNat (run1 ++ r2) : Int), r2.length⟩
        else if (sep = 'e' || sep = 'E') && !r2.isEmpty then
          some ⟨(digitsNat run1 : Int) * (10 : Int) ^ digitsNat r2, 0⟩
        else if sep = '_' && !r2.isEmpty then
          some ⟨(digitsNat (run1 ++ r2) : Int), 0⟩
        else none
      else none

/-- Nearest integer with ties to even, on the decimal value num / 10 ^ exp:
rounding performed by Python float formatting with two decimals (exact on
the decimal inputs of this development). -/
def roundHalfEven (n : Int) (e : Nat) : Int :=
  let p : Int := (10 : Int) ^ e
  let q := n / p
  let r := n % p
  if 2 * r < p then q
  else if p < 2 * r then q + 1
  else if q % 2 = 0 then q else q + 1

/-- Digit grouping of "{:,}": commas every three digits from the right; the
input is the reversed digit list. -/
def group3 : List Char → List Char
  | a :: b :: c :: d :: rest => a :: b :: c :: ',' :: group3 (d :: rest)
  | cs => cs

/-- Python "${:,.2f}".format(x) on a non-negative decimal value: dollar sign,
thousands-separated integer part, dot, exactly two fractional digits, with
half-to-even rounding.  (Negative values never reach this format call: the
extracted tokens are unsigned.) -/
def formatMoney (d : Dec) : String :=
  let cents := (roundHalfEven (d.num * 100) d.exp).toNat
  let ip := cents / 100
  let fp := cents % 100
  "$" ++ String.mk (group3 (toString ip).data.reverse).reverse
      ++ "." ++ padZeros 2 (toString fp)

/-! ### Column resolution (Deduplicator.__get_columns) -/

/-- The resolved native header names for the four canonical fields
(dataclass Columns of main.py). -/
structure Columns where
  title : String
  url : String
  image : String
  price : String
deriving DecidableEq, Repr

/-- Accumulator of the header classification loop: each keyword slot holds
the last header assigned to it, if any. -/
structure ColumnsAcc where
  title : Option String := none
  url : Option String := none
  image : Option String := none
  price : Option String := none
deriving DecidableEq, Repr

/-- One step of the header loop: the elif chain assigns the header to the
first keyword it contains, overwriting any earlier assignment of that slot. -/
def resolveStep (acc : ColumnsAcc) (c : String) : ColumnsAcc :=
  if containsCI "title" c then { acc with title := some c }
  else if containsCI "url" c then { acc with url := some c }
  else if containsCI "image" c then { acc with image := some c }
  else if containsCI "price" c then { acc with price := some c }
  else acc

/-- Deduplicator.__get_columns: classify every header, then build the
Columns value; referencing the first unassigned slot (in the argument order
title, url, image, price) raises NameError, which the except block turns
into an error message naming that variable. -/
def getColumns (headers : List String) : Except String Columns :=
  let a := headers.foldl resolveStep {}
  match a.title with
  | none => .error "missing column! name title is not defined"
  | some t =>
    match a.url with
    | none => .error "missing column! name url is not defined"
    | some u =>
      match a.image with
      | none => .error "missing column! name image is not defined"
      | some i =>
        match a.price with
        | none => .error "missing column! name price is not defined"
        | some p => .ok { title := t, url := u, image := i, price := p }

/-- First cell of the row labelled with the given header (pandas column
access after renaming; the tables of this development carry every header). -/
def lookupCell (k : String) (r : List (String × Cell)) : Cell :=
  match r.find? (fun kv => decide (kv.1 = k)) with
  | some kv => kv.2
  | none => Cell.na

/-- Option-valued lookup of a labelled cell, for stating properties. -/
def lookupCellOpt (k : String) (r : List (String × Cell)) : Option Cell :=
  (r.find? (fun kv => decide (kv.1 = k))).map (·.2)

/-- Deduplicator.__rename_columns followed by selection of the four
canonical columns: each raw row becomes a canonical Row. -/
def toRows (t : RawTable) (cols : Columns) : List Row :=
  t.rows.map (fun r =>
    { title := lookupCell cols.title r, url := lookupCell cols.url r,
      image := lookupCell cols.image r, price := lookupCell cols.price r })

/-! ### Whitespace trimming (Deduplicator.__remove_whitespace) -/

/-- Python str.strip() on a string (surrounding whitespace removed). -/
def pyStrip (s : String) : String :=
  String.mk (stripEnds Char.isWhitespace s.data)

/-- Deduplicator.__remove_whitespace on one row: Price and Title both become
str(value).strip(); a missing value becomes the text nan. -/
def removeWhitespaceRow (r : Row) : Row :=
  { r with price := Cell.str (pyStrip (pyStrCell r.price)),
           title := Cell.str (pyStrip (pyStrCell r.title)) }

/-- Deduplicator.__remove_whitespace on a table. -/
def removeWhitespace (df : List Row) : List Row :=
  df.map removeWhitespaceRow

/-! ### Price normalization (Deduplicator.__format_price) -/

/-- Deduplicator.__format_price.  In order: dropna on Price; astype(str);
drop rows whose price text contains a dash; keep rows matching the digit
pattern; clean the text; extract the numeric token (a failed search would
raise AttributeError through .group()); astype(float) (ValueError on a
non-numeric token) immediately followed by the money formatting map. -/
def formatPrice (df : List Row) : Except PyExc (List Row) :=
  let d1 := df.filter (fun r => !cellIsNa r.price)
  let d2 := d1.map (fun r => { r with price := Cell.str (pyStrCell r.price) })
  let d3 := d2.filter (fun r => !containsChar '-' (pyStrCell r.price))
  let d4 := d3.filter (fun r => priceDigitSearch (pyStrCell r.price).data)
  let d5 := d4.map (fun r => { r with price := Cell.str (cleanPrice (pyStrCell r.price)) })
  match mapME (fun r =>
      match extractToken (pyStrCell r.price).data with
      | none => .error PyExc.attributeError
      | some t => .ok { r with price := Cell.str (String.mk t) }) d5 with
  | .error e => .error e
  | .ok d6 =>
    mapME (fun r =>
      match parseFloatToken (pyStrCell r.price).data with
      | none => .error PyExc.valueError
      | some q => .ok { r with price := Cell.str (formatMoney q) }) d6

/-! ### Deduplication (Deduplicator.__drop_duplicates) -/

/-- The dropna(subset=[Title, Price]).astype(Price: str) preparation applied
to both sides of the merge. -/
def dedupPrep (df : List Row) : List Row :=
  (df.filter (fun r => !cellIsNa r.title && !cellIsNa r.price)).map
    (fun r => { r with price := Cell.str (pyStrCell r.price) })

/-- Key agreement of two prepared rows on (Title, Price). -/
def matchKey (r s : Row) : Bool :=
  decide (s.title = r.title ∧ s.price = r.price)

/-- pandas left merge with indicator on the keys [Title, Price], the right
side projected to those two columns: every left row yields one both-tagged
output row per key match in the right table, or a single left_only-tagged
row when there is none; left order is preserved.  The merged columns are
those of the left row. -/
def leftMergeIndicator (d2 : List Row) : List Row → List (Row × Bool)
  | [] => []
  | r :: rs =>
    (let ms := d2.filter (matchKey r)
     if ms.isEmpty then [(r, false)] else ms.map (fun _ => (r, true)))
      ++ leftMergeIndicator d2 rs

/-- Deduplicator.__drop_duplicates: prepare both tables, left-merge with
indicator, keep the left_only rows, drop the indicator column. -/
def dropDuplicates (df1 df2 : List Row) : List Row :=
  ((leftMergeIndicator (dedupPrep df2) (dedupPrep df1)).filter
      (fun p => !p.2)).map Prod.fst

/-! ### Domain matching (Deduplicator.__get_matching_files) -/

/-- Dataclass SameDomainFiles of main.py. -/
structure SameDomainFiles where
  domain : String
  file_paths : List String
deriving DecidableEq, Repr

/-- The matching loop of Deduplicator.__get_matching_files, given the
already-extracted domain: keep every historical path the interpolated
pattern matches, in discovery order. -/
def getMatchingFiles (domain : String) (oldPaths : List String) : SameDomainFiles :=
  { domain := domain,
    file_paths := oldPaths.filter (fun p => tokenSearch domain.data p.data) }

/-- Follows the spec wording for findMatches, for comparison with the code:
a historical path matches if it contains the domain token as a
case-insensitive literal substring anywhere in the path. -/
def findMatchesSpec (domain : String) (oldPaths : List String) : List String :=
  oldPaths.filter (fun p => containsCI domain p)

/-! ### Historical-file processing (Deduplicator.__process_matching_files) -/

/-- An input file: its path and the table its contents parse to.  Every
discovered file name ends in csv or xlsx, so Deduplicator.__read_file always
succeeds on it. -/
structure SrcFile where
  path : String
  table : RawTable
deriving DecidableEq, Repr

/-- Reading and normalizing one historical file inside the comparison loop:
column resolution without a stats record returns None on failure and the
file is skipped (ok none); otherwise rename, trim whitespace and normalize
prices; a price ValueError propagates. -/
def normalizeOld (o : SrcFile) : Except PyExc (Option (List Row)) :=
  match getColumns o.table.headers with
  | .error _ => .ok none
  | .ok cols =>
    match formatPrice (removeWhitespace (toRows o.table cols)) with
    | .error e => .error e
    | .ok rows => .ok (some rows)

/-- Deduplicator.__process_matching_files: subtract each matching historical
file from the running table in discovery order, skipping files whose columns
do not resolve, and stop early once no rows remain. -/
def processMatchingFiles : List Row → List SrcFile → Except PyExc (List Row)
  | df, [] => .ok df
  | df, o :: rest =>
    match normalizeOld o with
    | .error e => .error e
    | .ok none => processMatchingFiles df rest
    | .ok (some h) =>
      let df2 := dropDuplicates df h
      if df2.length = 0 then .ok df2 else processMatchingFiles df2 rest

/-! ### Price-column combining (Deduplicator.__combine_price_columns) -/

/-- The headers matching the keyword price, in header order
(re.search("price", c, re.I)). -/
def priceCols (t : RawTable) : List String :=
  t.headers.filter (fun c => containsCI "price" c)

/-- Python float() on the cleaned numeric string of __str_to_float: optional
surrounding whitespace and sign, a digit run with optional fractional part,
and an optional exponent.  The inf/nan words and underscore groupings are
outside the shapes this program feeds to it and are not modelled. -/
def pyFloatCore (cs : List Char) : Option Dec :=
  let d1 := cs.takeWhile Char.isDigit
  let r1 := cs.dropWhile Char.isDigit
  match r1 with
  | [] => if d1.isEmpty then none else some ⟨(digitsNat d1 : Int), 0⟩
  | '.' :: r2 =>
    let d2 := r2.takeWhile Char.isDigit
    let r3 := r2.dropWhile Char.isDigit
    if d1.isEmpty && d2.isEmpty then none
    else
      let base : Dec := ⟨(digitsNat (d1 ++ d2) : Int), d2.length⟩
      match r3 with
      | [] => some base
      | e :: r4 => if e = 'e' || e = 'E' then
                     match r4 with
                     | '+' :: ds => if !ds.isEmpty && ds.all Char.isDigit
                                    then some ⟨base.num * (10 : Int) ^ digitsNat ds, base.exp⟩ else none
                     | '-' :: ds => if !ds.isEmpty && ds.all Char.isDigit
                                    then some ⟨base.num, base.exp + digitsNat ds⟩ else none
                     | ds => if !ds.isEmpty && ds.all Char.isDigit
                             then some ⟨base.num * (10 : Int) ^ digitsNat ds, base.exp⟩ else none
                   else none
  | e :: r2 =>
    if (e = 'e' || e = 'E') && !d1.isEmpty then
      match r2 with
      | '+' :: ds => if !ds.isEmpty && ds.all Char.isDigit
                     then some ⟨(digitsNat d1 : Int) * (10 : Int) ^ digitsNat ds, 0⟩ else none
      | '-' :: ds => if !ds.isEmpty && ds.all Char.isDigit
                     then some ⟨(digitsNat d1 : Int), digitsNat ds⟩ else none
      | ds => if !ds.isEmpty && ds.all Char.isDigit
              then some ⟨(digitsNat d1 : Int) * (10 : Int) ^ digitsNat ds, 0⟩ else none
    else none

/-- Python float() on a string: strip whitespace, take an optional sign,
parse the unsigned body. -/
def pyFloat (s : String) : Option Dec :=
  match stripEnds Char.isWhitespace s.data with
  | '+' :: r => pyFloatCore r
  | '-' :: r => (pyFloatCore r).map (fun d => ⟨-d.num, d.exp⟩)
  | r => pyFloatCore r

/-- Deduplicator.__str_to_float on one cell.  A falsy value (empty string,
zero number) falls through every branch and returns None, which pandas
stores as missing; NaN is truthy and is returned unchanged as a float; a
non-empty string is cleaned of commas, spaces and dollar signs, stripped,
and parsed, raising ValueError when unparseable. -/
def strToFloat : Cell → Except PyExc Cell
  | Cell.na => .ok Cell.na
  | Cell.num d => if decIsZero d then .ok Cell.na else .ok (Cell.num d)
  | Cell.str s =>
    if s = "" then .ok Cell.na
    else
      match pyFloat (pyStrip (String.mk
          (s.data.filter (fun c => c ≠ ',' && c ≠ ' ' && c ≠ '$')))) with
      | some d => .ok (Cell.num d)
      | none => .error PyExc.valueError

/-- One column conversion pass df[col] = df[col].apply(str_to_float)
restricted to one row: convert the cells labelled with that column. -/
def convCellAt (c : String) (r : List (String × Cell)) : Except PyExc (List (String × Cell)) :=
  mapME (fun kv =>
    if kv.1 = c then
      match strToFloat kv.2 with
      | .error e => .error e
      | .ok v => .ok (kv.1, v)
    else .ok kv) r

/-- All price-column conversions applied to one row, in column order. -/
def convRowAll (pcs : List String) (r : List (String × Cell)) : Except PyExc (List (String × Cell)) :=
  foldlME (fun row c => convCellAt c row) r pcs

/-- The price-column cells of a row, in row order. -/
def priceCellsOf (pcs : List String) (r : List (String × Cell)) : List Cell :=
  r.filterMap (fun kv => if kv.1 ∈ pcs then some kv.2 else none)

/-- pandas df[price_columns].min(axis=1) on one row: the numeric minimum of
the present values, skipping missing ones; missing when none is present.
Ties keep the earlier value (the values are then numerically equal). -/
def rowMin (cells : List Cell) : Cell :=
  let ds := cells.filterMap (fun c => match c with | Cell.num d => some d | _ => none)
  match ds with
  | [] => Cell.na
  | d :: rest => Cell.num (rest.foldl (fun acc x => if decLt x acc then x else acc) d)

/-- pandas column assignment df[k] = v on one row: replace the cells already
labelled k, or append a new labelled cell at the end. -/
def setCell (k : String) (v : Cell) (r : List (String × Cell)) : List (String × Cell) :=
  if r.any (fun kv => decide (kv.1 = k)) then
    r.map (fun kv => if kv.1 = k then (k, v) else kv)
  else r ++ [(k, v)]

/-- Deduplicator.__combine_price_columns: when more than one header matches
price, convert every price column with __str_to_float (column by column),
set Price to the per-row minimum of the converted price columns, and drop
every other price-named column. -/
def combinePriceColumns (t : RawTable) : Except PyExc RawTable :=
  let pcs := priceCols t
  if 1 < pcs.length then
    match foldlME (fun rs c => mapME (convCellAt c) rs) t.rows pcs with
    | .error e => .error e
    | .ok rows1 =>
      let rows2 := rows1.map (fun r => setCell "Price" (rowMin (priceCellsOf pcs r)) r)
      let hs2 := if "Price" ∈ t.headers then t.headers else t.headers ++ ["Price"]
      let dropCols := pcs.filter (fun c => c ≠ "Price")
      .ok { headers := hs2.filter (fun c => !decide (c ∈ dropCols)),
            rows := rows2.map (fun r => r.filter (fun kv => !decide (kv.1 ∈ dropCols))) }
  else .ok t

/-- Follows the spec wording for the per-row combined price: the minimum of
the parseable numeric price values of the row, skipping blank and absent
values (a zero cell is such a parseable numeric value). -/
def rowMinSpec (cells : List Cell) : Option Dec :=
  let ds := cells.filterMap (fun c =>
    match c with
    | Cell.na => none
    | Cell.num d => some d
    | Cell.str s =>
      if s = "" then none
      else pyFloat (pyStrip (String.mk
             (s.data.filter (fun ch => ch ≠ ',' && ch ≠ ' ' && ch ≠ '$')))))
  match ds with
  | [] => none
  | d :: rest => some (rest.foldl (fun acc x => if decLt x acc then x else acc) d)

/-! ### The per-file state machine (Deduplicator.run) -/

/-- Dataclass FileStats of main.py. -/
structure FileStats where
  file_name : String
  products_count_before : Option Nat
  products_count_after : Option Nat := none
  error : Option String := none
deriving DecidableEq, Repr

/-- The mutable coordinator state: the run-wide statistics list, the saved
output files (name and surviving rows), and the in-memory aggregate of
surviving tables. -/
structure RunState where
  fileStats : List FileStats := []
  outputs : List (String × List Row) := []
  dataframes : List (List Row) := []
deriving DecidableEq, Repr

/-- Output file name of Deduplicator.__save_to_csv:
name.replace(".xlsx", ".csv").replace(".csv", "_filtered.csv"). -/
def outName (name : String) : String :=
  strReplace (strReplace name ".xlsx" ".csv") ".csv" "_filtered.csv"

/-- Lines 242 to 257 of Deduplicator.run, the preparation of a new file
before domain matching: combine the price columns, resolve the canonical
columns, rename, trim whitespace, normalize the prices.  When column
resolution fails the source sets the before count of the stats record to
None, records the error message, and then executes
self.file_stats.append(file_stats): the local name file_stats is only
assigned after the loop, so this raises UnboundLocalError (a NameError)
instead of appending stats, and the error aborts the run. -/
def newFilePrep (t : RawTable) : Except PyExc (List Row) :=
  match combinePriceColumns t with
  | .error e => .error e
  | .ok df1 =>
    match getColumns df1.headers with
    | .error _msg => .error PyExc.nameError
    | .ok cols => formatPrice (removeWhitespace (toRows df1 cols))

/-- The body of the per-file loop of Deduplicator.run.  Reading succeeds
for every discovered file (they all end in csv or xlsx); the stats record
is created with the raw row count before any other step.  A missing domain
token raises AttributeError through DOMAIN_RE.search(...).group(1).  Price
ValueErrors propagate.  On success the stats record, the output file and
the surviving table are appended to the coordinator state. -/
def processFile (inputNewPath : String) (oldFiles : List SrcFile)
    (st : RunState) (f : SrcFile) : Except PyExc RunState :=
  let name := splitTail inputNewPath f.path
  let before := f.table.rows.length
  match newFilePrep f.table with
  | .error e => .error e
  | .ok rows1 =>
    match extractDomain f.path with
    | none => .error PyExc.attributeError
    | some dom =>
      let matching := oldFiles.filter
        (fun o => tokenSearch dom.data o.path.data)
      match processMatchingFiles rows1 matching with
      | .error e => .error e
      | .ok rows2 =>
        let stats : FileStats :=
          { file_name := name, products_count_before := some before,
            products_count_after := some rows2.length, error := none }
        if rows2.length ≠ 0 then
          .ok { fileStats := st.fileStats ++ [stats],
                outputs := st.outputs ++ [(outName name, rows2)],
                dataframes := st.dataframes ++ [rows2] }
        else
          .ok { st with fileStats := st.fileStats ++ [stats] }

/-- Deduplicator.run over the discovered new files (initialization failures,
where no input files are found at all, terminate the process through
Logger.error before this loop starts).  An uncaught exception while
processing one file aborts the fold and thus the whole run. -/
def run (inputNewPath : String) (oldFiles newFiles : List SrcFile) :
    Except PyExc RunState :=
  foldlME (processFile inputNewPath oldFiles) {} newFiles

/-! ### Concrete input files and tables used by the witnesses -/

/-- A well-formed new file: resolvable columns, one product priced $5. -/
def fileOkDemo : SrcFile :=
  { path := "./new/shopA.csv",
    table := { headers := ["Title", "Url", "Image", "Price"],
               rows := [[("Title", Cell.str "Widget"), ("Url", Cell.str "u"),
                         ("Image", Cell.str "i"), ("Price", Cell.str "$5")]] } }

/-- A new file whose headers contain none of the four keywords, so column
resolution fails. -/
def fileBadCols : SrcFile :=
  { path := "./new/shopB.csv",
    table := { headers := ["A", "B"],
               rows := [[("A", Cell.str "x"), ("B", Cell.str "y")]] } }

/-- A new file whose name yields no DOMAIN_RE match (the stem has no
group-1 character placed so that the pattern can complete). -/
def fileNoDomain : SrcFile :=
  { path := "./new/_.csv",
    table := { headers := ["Title", "Url", "Image", "Price"],
               rows := [[("Title", Cell.str "Widget"), ("Url", Cell.str "u"),
                         ("Image", Cell.str "i"), ("Price", Cell.str "$5")]] } }

/-- A historical file of the shopA domain listing Widget at $10. -/
def oldDemo1 : SrcFile :=
  { path := "./old/shopA_jan.csv",
    table := { headers := ["Title", "Url", "Image", "Price"],
               rows := [[("Title", Cell.str "Widget"), ("Url", Cell.str "u"),
                         ("Image", Cell.str "i"), ("Price", Cell.str "$10")]] } }

/-- A historical file of the shopA domain listing Gizmo at $7. -/
def oldDemo2 : SrcFile :=
  { path := "./old/shopA_feb.csv",
    table := { headers := ["Title", "Url", "Image", "Price"],
               rows := [[("Title", Cell.str "Gizmo"), ("Url", Cell.str "u3"),
                         ("Image", Cell.str "i3"), ("Price", Cell.str "$7")]] } }

/-- The normalized table of oldDemo1. -/
def oldDemo1Rows : List Row :=
  [{ title := Cell.str "Widget", url := Cell.str "u",
     image := Cell.str "i", price := Cell.str "$10.00" }]

/-- The normalized table of oldDemo2. -/
def oldDemo2Rows : List Row :=
  [{ title := Cell.str "Gizmo", url := Cell.str "u3",
     image := Cell.str "i3", price := Cell.str "$7.00" }]

/-- The normalized historical table of each demo file. -/
def tabsDemo (o : SrcFile) : List Row :=
  if o = oldDemo1 then oldDemo1Rows else oldDemo2Rows

/-- A normalized new table with one row matched by oldDemo1 and one not. -/
def newRowsDemo : List Row :=
  [{ title := Cell.str "Widget", url := Cell.str "u",
     image := Cell.str "i", price := Cell.str "$10.00" },
   { title := Cell.str "Gadget", url := Cell.str "u2",
     image := Cell.str "i2", price := Cell.str "$20.00" }]

/-- A new table with two price-matching headers, Price $10 and SalePrice $8. -/
def exampleMultiPrice : RawTable :=
  { headers := ["Title", "Url", "Image", "Price", "SalePrice"],
    rows := [[("Title", Cell.str "W"), ("Url", Cell.str "u"), ("Image", Cell.str "i"),
              ("Price", Cell.str "$10"), ("SalePrice", Cell.str "$8")]] }

/-- A new table with two price-matching headers where the Price cell is the
number zero and the Sale Price cell is $5. -/
def zeroPriceTable : RawTable :=
  { headers := ["Title", "Url", "Image", "Price", "Sale Price"],
    rows := [[("Title", Cell.str "W"), ("Url", Cell.str "u"), ("Image", Cell.str "i"),
              ("Price", Cell.num ⟨0, 0⟩), ("Sale Price", Cell.str "$5")]] }

/-- The coordinator state after running fileOkDemo with no historical files. -/
def stateDemo : RunState :=
  { fileStats := [{ file_name := "shopA.csv",
                    products_count_before := some 1,
                    products_count_after := some 1,
                    error := none }],
    outputs := [("shopA_filtered.csv",
                 [{ title := Cell.str "Widget", url := Cell.str "u",
                    image := Cell.str "i", price := Cell.str "$5.00" }])],
    dataframes := [[{ title := Cell.str "Widget", url := Cell.str "u",
                      image := Cell.str "i", price := Cell.str "$5.00" }]] }

/-- The table combinePriceColumns produces from exampleMultiPrice. -/
def exampleCombined : RawTable :=
  { headers := ["Title", "Url", "Image", "Price"],
    rows := [[("Title", Cell.str "W"), ("Url", Cell.str "u"), ("Image", Cell.str "i"),
              ("Price", Cell.num ⟨8, 0⟩)]] }

/-- The table combinePriceColumns produces from zeroPriceTable. -/
def zeroCombined : RawTable :=
  { headers := ["Title", "Url", "Image", "Price"],
    rows := [[("Title", Cell.str "W"), ("Url", Cell.str "u"), ("Image", Cell.str "i"),
              ("Price", Cell.num ⟨5, 0⟩)]] }

/-! ## Helper lemmas -/

theorem filter_not_snd_map_true (r : Row) (ms : List Row) :
    (ms.map (fun _ => (r, true))).filter (fun p => !p.2) = [] := by
  induction ms with
  | nil => rfl
  | cons m ms ih => simp [ih]

/-- The merge-with-indicator formulation of __drop_duplicates coincides with
a filter: the left rows kept are exactly those without a key match on the
right, once each, in order. -/
theorem mergeFilter_eq (d2 : List Row) :
    ∀ d1 : List Row,
      ((leftMergeIndicator d2 d1).filter (fun p => !p.2)).map Prod.fst
        = d1.filter (fun r => (d2.filter (matchKey r)).isEmpty) := by
  intro d1
  induction d1 with
  | nil => rfl
  | cons r rs ih =>
    simp only [leftMergeIndicator, List.filter_append, List.map_append, ih]
    by_cases hms : (d2.filter (matchKey r)).isEmpty
    · simp [hms]
    · simp [hms, filter_not_snd_map_true]

theorem dropDuplicates_char (df1 df2 : List Row) :
    dropDuplicates df1 df2
      = (dedupPrep df1).filter
          (fun r => ((dedupPrep df2).filter (matchKey r)).isEmpty) := by
  unfold dropDuplicates
  exact mergeFilter_eq (dedupPrep df2) (dedupPrep df1)

theorem matchKey_self (r : Row) : matchKey r r = true := by
  simp [matchKey]

theorem normRow_iff (r : Row) :
    normRow r = true ↔
      (∃ a, r.title = Cell.str a) ∧ (∃ b, r.price = Cell.str b) := by
  cases h1 : r.title <;> cases h2 : r.price <;> simp [normRow, h1, h2]

theorem dedupPrep_eq_self (df : List Row) (h : ∀ r ∈ df, normRow r = true) :
    dedupPrep df = df := by
  induction df with
  | nil => rfl
  | cons r rs ih =>
    have hr := h r (by simp)
    obtain ⟨⟨a, ha⟩, ⟨b, hb⟩⟩ := (normRow_iff r).mp hr
    have hrest : dedupPrep rs = rs := ih (fun x hx => h x (by simp [hx]))
    unfold dedupPrep at hrest ⊢
    simp only [List.filter_cons, ha, hb, cellIsNa, Bool.not_false, Bool.and_self,
      if_true, List.map_cons, hrest]
    congr 1
    cases r
    simp_all [pyStrCell]

theorem dropDuplicates_normal (df h : List Row)
    (hdf : ∀ r ∈ df, normRow r = true) (hh : ∀ r ∈ h, normRow r = true) :
    dropDuplicates df h
      = df.filter (fun r => (h.filter (matchKey r)).isEmpty) := by
  rw [dropDuplicates_char, dedupPrep_eq_self df hdf, dedupPrep_eq_self h hh]

/-- The subtraction loop of __process_matching_files, on resolvable
normalized historical files, keeps exactly the new rows whose key appears
in none of their tables. -/
theorem processMatchingFiles_char (tabs : SrcFile → List Row) :
    ∀ (files : List SrcFile) (df : List Row),
      (∀ r ∈ df, normRow r = true) →
      (∀ o ∈ files, normalizeOld o = .ok (some (tabs o))) →
      (∀ o ∈ files, ∀ r ∈ tabs o, normRow r = true) →
      processMatchingFiles df files
        = .ok (df.filter (fun r =>
            files.all (fun o => ((tabs o).filter (matchKey r)).isEmpty))) := by
  intro files
  induction files with
  | nil =>
    intro df _ _ _
    simp [processMatchingFiles]
  | cons o rest ih =>
    intro df hdf hres hnorm
    have ho : normalizeOld o = .ok (some (tabs o)) := hres o (by simp)
    have hto : ∀ r ∈ tabs o, normRow r = true := hnorm o (by simp)
    have hsub : dropDuplicates df (tabs o)
        = df.filter (fun r => ((tabs o).filter (matchKey r)).isEmpty) :=
      dropDuplicates_normal df (tabs o) hdf hto
    simp only [processMatchingFiles, ho]
    by_cases hz : (dropDuplicates df (tabs o)).length = 0
    · simp only [hz, if_true]
      have hnil : dropDuplicates df (tabs o) = [] := List.length_eq_zero.mp hz
      rw [hnil]
      have hall : ∀ r ∈ df, ¬ (((tabs o).filter (matchKey r)).isEmpty = true) := by
        intro r hr hcontra
        have : r ∈ df.filter (fun r => ((tabs o).filter (matchKey r)).isEmpty) :=
          List.mem_filter.mpr ⟨hr, hcontra⟩
        rw [← hsub, hnil] at this
        exact absurd this (List.not_mem_nil r)
      have : df.filter (fun r =>
          (o :: rest).all (fun o2 => ((tabs o2).filter (matchKey r)).isEmpty)) = [] := by
        refine List.filter_eq_nil_iff.mpr ?_
        intro r hr
        simp only [List.all_cons, Bool.and_eq_true]
        intro ⟨h1, _⟩
        exact hall r hr h1
      rw [this]
    · simp only [hz, if_false]
      have hdf2 : ∀ r ∈ dropDuplicates df (tabs o), normRow r = true := by
        rw [hsub]
        intro r hr
        exact hdf r (List.mem_filter.mp hr).1
      have := ih (dropDuplicates df (tabs o)) hdf2
        (fun o2 h2 => hres o2 (by simp [h2]))
        (fun o2 h2 => hnorm o2 (by simp [h2]))
      rw [this, hsub, List.filter_filter]
      congr 1
      refine List.filter_congr ?_
      intro r _
      simp [List.all_cons, Bool.and_comm]

theorem perm_all_eq {α : Type} (f : α → Bool) {l1 l2 : List α}
    (h : l1.Perm l2) : l1.all f = l2.all f := by
  have hiff : l1.all f = true ↔ l2.all f = true := by
    simp only [List.all_eq_true]
    constructor <;> intro hh x hx
    · exact hh x (h.mem_iff.mpr hx)
    · exact hh x (h.mem_iff.mp hx)
  cases h1 : l1.all f <;> cases h2 : l2.all f <;> simp_all

theorem tokenSearch_iff (pat : List Char) :
    ∀ cs : List Char,
      tokenSearch pat cs = true ↔ ∃ k, tokenMatchesAt pat (cs.drop k) = true := by
  intro cs
  induction cs with
  | nil =>
    simp only [tokenSearch]
    constructor
    · intro h; exact ⟨0, h⟩
    · rintro ⟨k, hk⟩; simpa using hk
  | cons c cs ih =>
    simp only [tokenSearch, Bool.or_eq_true, ih]
    constructor
    · rintro (h | ⟨k, hk⟩)
      · exact ⟨0, h⟩
      · exact ⟨k + 1, by simpa using hk⟩
    · rintro ⟨k, hk⟩
      cases k with
      | zero => exact Or.inl (by simpa using hk)
      | succ k => exact Or.inr ⟨k, by simpa using hk⟩

theorem processFile_ok_before (p : String) (old : List SrcFile) (st : RunState)
    (f : SrcFile) (st2 : RunState) (h : processFile p old st f = .ok st2) :
    st2.fileStats.map (fun s => s.products_count_before)
      = st.fileStats.map (fun s => s.products_count_before)
        ++ [some f.table.rows.length] := by
  unfold processFile at h
  dsimp only at h
  split at h
  · exact absurd h (by simp)
  · split at h
    · exact absurd h (by simp)
    · split at h
      · exact absurd h (by simp)
      · split at h
        · cases h
          simp
        · cases h
          simp

theorem run_before_aux (p : String) (old : List SrcFile) :
    ∀ (new : List SrcFile) (st0 st : RunState),
      foldlME (processFile p old) st0 new = .ok st →
      st.fileStats.map (fun s => s.products_count_before)
        = st0.fileStats.map (fun s => s.products_count_before)
          ++ new.map (fun f => some f.table.rows.length) := by
  intro new
  induction new with
  | nil =>
    intro st0 st h
    cases h
    simp
  | cons f fs ih =>
    intro st0 st h
    simp only [foldlME] at h
    split at h
    · exact absurd h (by simp)
    · rename_i s1 heq
      have h1 := processFile_ok_before p old st0 f s1 heq
      have h2 := ih s1 st h
      rw [h2, h1]
      simp

theorem mapME_congr (f g : α → Except PyExc β) (l : List α)
    (h : ∀ a ∈ l, f a = g a) : mapME f l = mapME g l := by
  induction l with
  | nil => rfl
  | cons x xs ih =>
    simp only [mapME, h x (by simp)]
    rw [ih (fun a ha => h a (by simp [ha]))]

theorem mapME_ok_id (l : List α) : mapME (fun a => Except.ok a) l = .ok l := by
  induction l with
  | nil => rfl
  | cons x xs ih => simp [mapME, ih]

theorem mapME_ok_comp (f : α → Except PyExc β) (g : β → Except PyExc γ)
    (fg : α → Except PyExc γ) (hc : ∀ a b, f a = .ok b → fg a = g b) :
    ∀ (l : List α) (lm : List β) (out : List γ),
      mapME f l = .ok lm → mapME g lm = .ok out → mapME fg l = .ok out := by
  intro l
  induction l with
  | nil =>
    intro lm out h1 h2
    cases h1
    cases h2
    rfl
  | cons x xs ih =>
    intro lm out h1 h2
    simp only [mapME] at h1
    cases hfx : f x with
    | error e => rw [hfx] at h1; exact absurd h1 (by simp)
    | ok y =>
      rw [hfx] at h1
      cases hxs : mapME f xs with
      | error e => rw [hxs] at h1; exact absurd h1 (by simp)
      | ok ys =>
        rw [hxs] at h1
        cases h1
        simp only [mapME] at h2
        cases hgy : g y with
        | error e => rw [hgy] at h2; exact absurd h2 (by simp)
        | ok z =>
          rw [hgy] at h2
          cases hys : mapME g ys with
          | error e => rw [hys] at h2; exact absurd h2 (by simp)
          | ok zs =>
            rw [hys] at h2
            cases h2
            simp only [mapME, hc x y hfx, hgy]
            rw [ih ys zs hxs hys]

theorem convRowAll_cons (c : String) (cols : List String)
    (a : List (String × Cell)) (b : List (String × Cell))
    (hab : convCellAt c a = .ok b) :
    convRowAll (c :: cols) a = convRowAll cols b := by
  simp only [convRowAll, foldlME, hab]

theorem foldlME_mapME_ok :
    ∀ (cols : List String) (rows rows1 : List (List (String × Cell))),
      foldlME (fun rs c => mapME (convCellAt c) rs) rows cols = .ok rows1 →
      mapME (convRowAll cols) rows = .ok rows1 := by
  intro cols
  induction cols with
  | nil =>
    intro rows rows1 h
    cases h
    have : convRowAll ([] : List String) = fun r => Except.ok r := rfl
    rw [this]
    exact mapME_ok_id rows
  | cons c cols ih =>
    intro rows rows1 h
    simp only [foldlME] at h
    cases hm : mapME (convCellAt c) rows with
    | error e => rw [hm] at h; exact absurd h (by simp)
    | ok rowsM =>
      rw [hm] at h
      exact mapME_ok_comp (convCellAt c) (convRowAll cols) (convRowAll (c :: cols))
        (fun a b hab => convRowAll_cons c cols a b hab)
        rows rowsM rows1 hm (ih rowsM rows1 h)

theorem mapME_ok_get (f : α → Except PyExc β) :
    ∀ (l : List α) (l2 : List β), mapME f l = .ok l2 →
      l2.length = l.length ∧
      ∀ (i : Nat) (a : α), l[i]? = some a → ∃ b, f a = .ok b ∧ l2[i]? = some b := by
  intro l
  induction l with
  | nil =>
    intro l2 h
    cases h
    simp
  | cons x xs ih =>
    intro l2 h
    simp only [mapME] at h
    cases hfx : f x with
    | error e => rw [hfx] at h; exact absurd h (by simp)
    | ok y =>
      rw [hfx] at h
      cases hxs : mapME f xs with
      | error e => rw [hxs] at h; exact absurd h (by simp)
      | ok ys =>
        rw [hxs] at h
        cases h
        obtain ⟨hlen, hidx⟩ := ih ys hxs
        refine ⟨by simp [hlen], ?_⟩
        intro i a ha
        cases i with
        | zero =>
          simp only [List.getElem?_cons_zero, Option.some_inj] at ha
          exact ⟨y, by rw [← ha]; exact hfx, by simp⟩
        | succ i =>
          simp only [List.getElem?_cons_succ] at ha ⊢
          exact hidx i a ha

theorem lookupCellOpt_cons (k : String) (kv : String × Cell)
    (r : List (String × Cell)) :
    lookupCellOpt k (kv :: r)
      = if kv.1 = k then some kv.2 else lookupCellOpt k r := by
  by_cases h : kv.1 = k <;> simp [lookupCellOpt, List.find?_cons, h]

theorem lookupOpt_map_replace (k : String) (v : Cell) :
    ∀ r : List (String × Cell),
      r.any (fun kv => decide (kv.1 = k)) = true →
      lookupCellOpt k (r.map (fun kv => if kv.1 = k then (k, v) else kv)) = some v := by
  intro r
  induction r with
  | nil => intro h; simp at h
  | cons kv r ih =>
    intro h
    by_cases hk : kv.1 = k
    · simp [hk, lookupCellOpt_cons]
    · simp only [List.any_cons, Bool.or_eq_true, decide_eq_true_eq] at h
      rcases h with h | h
      · exact absurd h hk
      · simp only [List.map_cons, if_neg hk, lookupCellOpt_cons]
        exact ih h

theorem lookupOpt_append_miss (k : String) (v : Cell) :
    ∀ r : List (String × Cell),
      r.any (fun kv => decide (kv.1 = k)) = false →
      lookupCellOpt k (r ++ [(k, v)]) = some v := by
  intro r
  induction r with
  | nil => intro _; simp [lookupCellOpt_cons]
  | cons kv r ih =>
    intro h
    simp only [List.any_cons, Bool.or_eq_false_iff] at h
    simp only [List.cons_append, lookupCellOpt_cons]
    rw [if_neg (by simpa using h.1)]
    exact ih h.2

theorem lookupOpt_setCell_self (k : String) (v : Cell) (r : List (String × Cell)) :
    lookupCellOpt k (setCell k v r) = some v := by
  unfold setCell
  by_cases h : r.any (fun kv => decide (kv.1 = k)) = true
  · rw [if_pos h]
    exact lookupOpt_map_replace k v r h
  · rw [if_neg h]
    exact lookupOpt_append_miss k v r (Bool.eq_false_iff.mpr h)

theorem lookupOpt_filter_keep (k : String) (p : String × Cell → Bool)
    (hp : ∀ v, p (k, v) = true) :
    ∀ r : List (String × Cell),
      lookupCellOpt k (r.filter p) = lookupCellOpt k r := by
  intro r
  induction r with
  | nil => rfl
  | cons kv r ih =>
    by_cases hk : kv.1 = k
    · have hpkv : p kv = true := by
        have hkv : kv = (k, kv.2) := by
          cases kv
          simp_all
        rw [hkv]
        exact hp kv.2
      simp [List.filter_cons, hpkv, lookupCellOpt_cons, hk]
    · cases hpkv : p kv with
      | true =>
        simp only [List.filter_cons, hpkv, if_true, lookupCellOpt_cons]
        rw [if_neg hk, if_neg hk]
        exact ih
      | false =>
        simp only [List.filter_cons, hpkv, Bool.false_eq_true, if_false,
          lookupCellOpt_cons]
        rw [if_neg hk]
        exact ih

theorem lookupOpt_filter_drop (k : String) (p : String × Cell → Bool)
    (hp : ∀ v, p (k, v) = false) :
    ∀ r : List (String × Cell), lookupCellOpt k (r.filter p) = none := by
  intro r
  induction r with
  | nil => rfl
  | cons kv r ih =>
    cases hpkv : p kv with
    | true =>
      have hk : kv.1 ≠ k := by
        intro hk
        have hkv : kv = (k, kv.2) := by
          cases kv
          simp_all
        rw [hkv, hp kv.2] at hpkv
        exact absurd hpkv (by simp)
      simp only [List.filter_cons, hpkv, if_true, lookupCellOpt_cons]
      rw [if_neg hk]
      exact ih
    | false =>
      simp only [List.filter_cons, hpkv, Bool.false_eq_true, if_false]
      exact ih

/-! ## Claim theorems -/

/-- C7: subtracting a table from itself yields the empty table: every
prepared row of the left side finds its own (title, price) key on the right,
so no row is tagged left_only. -/
theorem subtract_self_is_empty (df : List Row) : dropDuplicates df df = [] := by
  rw [dropDuplicates_char]
  refine List.filter_eq_nil_iff.mpr ?_
  intro r hr hcontra
  have hmem : r ∈ (dedupPrep df).filter (matchKey r) :=
    List.mem_filter.mpr ⟨hr, matchKey_self r⟩
  rw [List.isEmpty_iff] at hcontra
  rw [hcontra] at hmem
  exact absurd hmem (List.not_mem_nil r)

/-- C9: subtract returns exactly the rows of the prepared left table (rows
with missing title or price dropped, price coerced to text) whose
(title, price) key has no match in the prepared right table - as a filter
of the left table, so surviving rows keep their original relative order and
each occurrence, duplicate keys on the right never duplicate survivors, and
removal happens only on a key match.  The result is a sublist of the
prepared left table. -/
theorem subtract_is_key_filter (df1 df2 : List Row) :
    dropDuplicates df1 df2
      = (dedupPrep df1).filter
          (fun r => ((dedupPrep df2).filter (matchKey r)).isEmpty) ∧
    (dropDuplicates df1 df2).Sublist (dedupPrep df1) := by
  refine ⟨dropDuplicates_char df1 df2, ?_⟩
  rw [dropDuplicates_char]
  exact List.filter_sublist _

/-- C4 (code bug): price normalization is not total.  A row whose price text
is 3a5 passes the digit filter, the unescaped dot of the extraction pattern
\d+.?\d* matches the letter a, and float() then raises an uncaught
ValueError that aborts the run, instead of the row being silently
excluded. -/
theorem formatPrice_unparseable_token_raises :
    formatPrice
      [{ title := Cell.str "T", url := Cell.str "", image := Cell.str "",
         price := Cell.str "3a5" }] = .error PyExc.valueError := rfl

/-- C6: the four documented price normalization examples, run through the
whitespace-trimming and price-formatting steps exactly as the pipeline does:
a price of " $1,234.50 " survives as the canonical text $1,234.50, a range
price 10-20 is dropped, $5 survives as $5.00, and an absent price (which
trimming first turns into the text nan) is dropped for lack of a digit. -/
theorem price_normalization_examples :
    formatPrice (removeWhitespace
      [{ title := Cell.str "A", url := Cell.str "", image := Cell.str "",
         price := Cell.str " $1,234.50 " },
       { title := Cell.str "B", url := Cell.str "", image := Cell.str "",
         price := Cell.str "10-20" },
       { title := Cell.str "C", url := Cell.str "", image := Cell.str "",
         price := Cell.str "$5" },
       { title := Cell.str "D", url := Cell.str "", image := Cell.str "",
         price := Cell.na }])
      = .ok
        [{ title := Cell.str "A", url := Cell.str "", image := Cell.str "",
           price := Cell.str "$1,234.50" },
         { title := Cell.str "C", url := Cell.str "", image := Cell.str "",
           price := Cell.str "$5.00" }] := rfl

/-- C5 (counterexample): the domain token is interpolated into the search
pattern unescaped, so its dots match any character: the token a.b is a
producible domain (from the file name a.b.csv), it selects the historical
path old/aXb.csv, yet a.b is not a literal case-insensitive substring of
that path, contradicting the claimed literal-containment rule. -/
theorem findMatches_wildcard_dot_counterexample :
    extractDomain "./new/a.b.csv" = some "a.b" ∧
    (getMatchingFiles "a.b" ["old/aXb.csv"]).file_paths = ["old/aXb.csv"] ∧
    findMatchesSpec "a.b" ["old/aXb.csv"] = [] := ⟨rfl, rfl, rfl⟩

/-- C5 (amended): findMatches selects exactly those historical paths that
match the domain token interpreted as a regular expression - case
insensitive, unanchored, with each dot of the token matching any single
character except a newline - preserving discovery order (the selection is a
sublist of the input). -/
theorem findMatches_regex_containment (domain : String) (paths : List String) :
    (getMatchingFiles domain paths).domain = domain ∧
    (getMatchingFiles domain paths).file_paths.Sublist paths ∧
    ∀ p, p ∈ (getMatchingFiles domain paths).file_paths ↔
      p ∈ paths ∧ ∃ k, tokenMatchesAt domain.data (p.data.drop k) = true := by
  refine ⟨rfl, List.filter_sublist _, ?_⟩
  intro p
  simp only [getMatchingFiles, List.mem_filter]
  rw [tokenSearch_iff]

/-- C1 (code bug): a new file whose headers resolve no columns does not get
a stats record appended and does not let the run continue: the handler
branch evaluates the unbound local file_stats and the resulting NameError
aborts the whole run, so the second (well-formed) file is never processed.
The second conjunct shows the triggering condition: resolution of the
headers A, B fails with a message naming the missing title field. -/
theorem missing_columns_unbound_local_aborts :
    run "./new/" [oldDemo1, oldDemo2] [fileBadCols, fileOkDemo]
        = .error PyExc.nameError ∧
    getColumns fileBadCols.table.headers
        = .error "missing column! name title is not defined" := ⟨rfl, rfl⟩

/-- C2 (counterexample): a new file whose name yields no domain token makes
DOMAIN_RE.search return None, and .group(1) raises an uncaught
AttributeError that aborts the whole run: with the no-domain file first,
the run errors and the second file is never processed, although that second
file on its own runs to completion. -/
theorem noDomain_aborts_run_counterexample :
    run "./new/" [oldDemo1, oldDemo2] [fileNoDomain, fileOkDemo]
        = .error PyExc.attributeError ∧
    run "./new/" [oldDemo1, oldDemo2] [fileOkDemo] = .ok stateDemo := ⟨rfl, rfl⟩

/-- C2 (amended): when a new file yields no domain token, the failure is
not contained to that file: for every historical file list and every list
of remaining new files, the run aborts with the uncaught AttributeError and
the remaining files are never processed. -/
theorem noDomain_aborts_whole_run (oldFiles rest : List SrcFile) :
    run "./new/" oldFiles (fileNoDomain :: rest) = .error PyExc.attributeError := rfl

/-- C3: subtracting a fixed set of resolvable normalized historical tables
is invariant under permutation of the file order, and the final result
keeps exactly the rows of the new table whose (title, price) key occurs in
none of the historical tables (the union of their keys). -/
theorem subtract_history_order_invariant
    (df : List Row) (files1 files2 : List SrcFile) (tabs : SrcFile → List Row)
    (hdf : ∀ r ∈ df, normRow r = true)
    (hres : ∀ o ∈ files1, normalizeOld o = .ok (some (tabs o)))
    (hnorm : ∀ o ∈ files1, ∀ r ∈ tabs o, normRow r = true)
    (hperm : files1.Perm files2) :
    processMatchingFiles df files2 = processMatchingFiles df files1 ∧
    processMatchingFiles df files1
      = .ok (df.filter (fun r =>
          files1.all (fun o => ((tabs o).filter (matchKey r)).isEmpty))) := by
  have hres2 : ∀ o ∈ files2, normalizeOld o = .ok (some (tabs o)) :=
    fun o ho => hres o (hperm.mem_iff.mpr ho)
  have hnorm2 : ∀ o ∈ files2, ∀ r ∈ tabs o, normRow r = true :=
    fun o ho => hnorm o (hperm.mem_iff.mpr ho)
  have c1 := processMatchingFiles_char tabs files1 df hdf hres hnorm
  have c2 := processMatchingFiles_char tabs files2 df hdf hres2 hnorm2
  refine ⟨?_, c1⟩
  rw [c1, c2]
  congr 1
  refine List.filter_congr ?_
  intro r _
  exact (perm_all_eq _ hperm).symm

/-- Witness for C3 at a concrete instance: two historical files in both
orders, a new table with one matched and one unmatched row. -/
theorem subtract_history_order_invariant_witness :
    processMatchingFiles newRowsDemo [oldDemo2, oldDemo1]
        = processMatchingFiles newRowsDemo [oldDemo1, oldDemo2] ∧
    processMatchingFiles newRowsDemo [oldDemo1, oldDemo2]
      = .ok (newRowsDemo.filter (fun r =>
          [oldDemo1, oldDemo2].all
            (fun o => ((tabsDemo o).filter (matchKey r)).isEmpty))) :=
  subtract_history_order_invariant newRowsDemo [oldDemo1, oldDemo2]
    [oldDemo2, oldDemo1] tabsDemo
    (by decide) (by intro o ho; fin_cases ho <;> rfl) (by decide)
    (List.Perm.swap oldDemo2 oldDemo1 [])

/-- C10: in every run that completes, the stats records carry, file by file
in order, a products_count_before equal to the raw row count of the table
as read, measured before price-column combining, renaming, price
normalization and dedup. -/
theorem products_count_before_is_raw_count (p : String)
    (old new : List SrcFile) (st : RunState) (h : run p old new = .ok st) :
    st.fileStats.map (fun s => s.products_count_before)
      = new.map (fun f => some f.table.rows.length) := by
  have := run_before_aux p old new {} st h
  simpa using this

/-- Witness for C10: the demo run records a before count of 1, the raw row
count of the demo file, although its row count is also 1 after the pipeline
(the general theorem is applied at the concrete run). -/
theorem products_count_before_witness :
    stateDemo.fileStats.map (fun s => s.products_count_before)
      = [fileOkDemo].map (fun f => some f.table.rows.length) :=
  products_count_before_is_raw_count "./new/" [oldDemo1, oldDemo2]
    [fileOkDemo] stateDemo (by rfl)

/-- C8 (counterexample): with Price holding the number zero and Sale Price
$5, the combining step yields a combined Price of 5 - the zero value is
falsy in __str_to_float, becomes missing and is skipped by the row minimum -
whereas the minimum of the parseable numeric price values of the row, as
the claim states it, is 0. -/
theorem combine_zero_price_counterexample :
    combinePriceColumns zeroPriceTable = .ok zeroCombined ∧
    lookupCellOpt "Price" (zeroCombined.rows.getD 0 []) = some (Cell.num ⟨5, 0⟩) ∧
    rowMinSpec (priceCellsOf (priceCols zeroPriceTable)
        [("Title", Cell.str "W"), ("Url", Cell.str "u"), ("Image", Cell.str "i"),
         ("Price", Cell.num ⟨0, 0⟩), ("Sale Price", Cell.str "$5")])
      = some ⟨0, 0⟩ ∧
    (⟨5, 0⟩ : Dec) ≠ (⟨0, 0⟩ : Dec) := ⟨rfl, rfl, rfl, by decide⟩

/-- C8 (amended): when more than one header matches price, the combining
step - before column resolution - converts all price columns with
__str_to_float, sets a single Price value per row to the minimum of the
converted values of that row (so blank, absent and zero values are all
skipped, since __str_to_float maps falsy values to missing), and removes
every other price-named column from the headers and from every row.  The
last conjunct realizes the documented example end to end: a row with Price
$10 and SalePrice $8 reaches the later normalization with the canonical
price $8.00. -/
theorem combinePriceColumns_min_rule (t t2 : RawTable)
    (h1 : 1 < (priceCols t).length)
    (hok : combinePriceColumns t = .ok t2) :
    ((∀ c ∈ priceCols t, c ≠ "Price" → c ∉ t2.headers) ∧
    t2.rows.length = t.rows.length ∧
    ∀ (i : Nat) (r : List (String × Cell)), t.rows[i]? = some r →
      ∃ rc r2, convRowAll (priceCols t) r = .ok rc ∧ t2.rows[i]? = some r2 ∧
        lookupCellOpt "Price" r2
          = some (rowMin (priceCellsOf (priceCols t) rc)) ∧
        ∀ c ∈ priceCols t, c ≠ "Price" → lookupCellOpt c r2 = none) ∧
    newFilePrep exampleMultiPrice
      = .ok [{ title := Cell.str "W", url := Cell.str "u",
               image := Cell.str "i", price := Cell.str "$8.00" }] := by
  refine ⟨?_, rfl⟩
  unfold combinePriceColumns at hok
  dsimp only at hok
  rw [if_pos h1] at hok
  split at hok
  · exact absurd hok (by simp)
  · rename_i rows1 hfold
    cases hok
    have hmm := foldlME_mapME_ok (priceCols t) t.rows rows1 hfold
    obtain ⟨hlen, hidx⟩ := mapME_ok_get _ t.rows rows1 hmm
    refine ⟨?_, ?_, ?_⟩
    · intro c hc hne hmem
      have hdrop : c ∈ (priceCols t).filter (fun c => c ≠ "Price") :=
        List.mem_filter.mpr ⟨hc, by simp [hne]⟩
      have hkeep := (List.mem_filter.mp hmem).2
      simp only [Bool.not_eq_true', decide_eq_false_iff_not] at hkeep
      exact hkeep hdrop
    · simp [hlen]
    · intro i r hr
      obtain ⟨rc, hrc, hr1⟩ := hidx i r hr
      refine ⟨rc,
        (setCell "Price" (rowMin (priceCellsOf (priceCols t) rc)) rc).filter
          (fun kv => !decide (kv.1 ∈ (priceCols t).filter (fun c => c ≠ "Price"))),
        hrc, ?_, ?_, ?_⟩
      · simp [List.getElem?_map, hr1]
      · rw [lookupOpt_filter_keep "Price" _ ?_]
        · exact lookupOpt_setCell_self _ _ _
        · intro v
          simp [List.mem_filter]
      · intro c hc hne
        refine lookupOpt_filter_drop c _ ?_ _
        intro v
        simp only [Bool.not_eq_false', decide_eq_true_eq]
        exact List.mem_filter.mpr ⟨hc, by simp [hne]⟩

/-- Witness for C8 at the documented example: a row with Price $10 and
SalePrice $8 gets the combined Price 8 (the row minimum of the converted
values), and the SalePrice column is gone. -/
theorem combinePriceColumns_min_rule_witness :
    ∃ rc r2,
      convRowAll (priceCols exampleMultiPrice)
          [("Title", Cell.str "W"), ("Url", Cell.str "u"), ("Image", Cell.str "i"),
           ("Price", Cell.str "$10"), ("SalePrice", Cell.str "$8")] = .ok rc ∧
      exampleCombined.rows[0]? = some r2 ∧
      lookupCellOpt "Price" r2
        = some (rowMin (priceCellsOf (priceCols exampleMultiPrice) rc)) ∧
      ∀ c ∈ priceCols exampleMultiPrice, c ≠ "Price" →
        lookupCellOpt c r2 = none :=
  (combinePriceColumns_min_rule exampleMultiPrice exampleCombined
    (by decide) (by rfl)).1.2.2 0
    [("Title", Cell.str "W"), ("Url", Cell.str "u"), ("Image", Cell.str "i"),
     ("Price", Cell.str "$10"), ("SalePrice", Cell.str "$8")] (by rfl)
